import Mathlib

/-!
Shallow embedding of `src/web/src/workers/scrubWorker.ts` (NoMetaDataFree).

Bytes of a `Uint8Array` are modelled as `List Nat` (each entry `0..255`).
JavaScript strings are modelled as Lean `String`; `charCodeAt j & 0xff` on the
ASCII needles used by the worker is the character's code point modulo 256.
JavaScript numbers are modelled by `JNumber` (NaN, the two infinities, and a
finite value); dynamically typed values produced by the external `exifr`
parser are modelled by `JValue`, and a JavaScript object by an association
list whose keys are pairwise distinct (a JS object cannot hold the same
property key twice).  External, asynchronous platform calls (`exifr.parse`,
`createImageBitmap`, `canvas.convertToBlob`, the libheif decoder) are
modelled as environment data: their outcomes are inputs to the embedded
functions, and a thrown exception is an `Except.error` / `ParseOutcome.failure`.
-/

namespace Scrub

/-- A JavaScript number: NaN, +Infinity, -Infinity, or a finite value. -/
inductive JNumber where
  | nan
  | posInf
  | negInf
  | val (q : ℚ)
deriving DecidableEq, Repr

/-- `Math.max(a, b)`: NaN-propagating maximum of two JavaScript numbers. -/
def jmax (a b : JNumber) : JNumber :=
  match a, b with
  | .nan, _ => .nan
  | _, .nan => .nan
  | .posInf, _ => .posInf
  | _, .posInf => .posInf
  | .negInf, x => x
  | x, .negInf => x
  | .val p, .val q => .val (max p q)

/-- `Math.min(a, b)`: NaN-propagating minimum of two JavaScript numbers. -/
def jmin (a b : JNumber) : JNumber :=
  match a, b with
  | .nan, _ => .nan
  | _, .nan => .nan
  | .negInf, _ => .negInf
  | _, .negInf => .negInf
  | .posInf, x => x
  | x, .posInf => x
  | .val p, .val q => .val (min p q)

/-- Whether a JavaScript number is a (finite) member of the interval [0, 1]. -/
def inUnitInterval : JNumber → Bool
  | .val q => decide (0 ≤ q ∧ q ≤ 1)
  | _ => false

/-- A dynamically typed JavaScript value, as produced by the `exifr` parser. -/
inductive JValue where
  | num (x : JNumber)
  | str (s : String)
  | boolv (b : Bool)
  | nullv
  | undef
  | other
deriving DecidableEq, Repr

/-- A JavaScript object: an association list of properties in insertion
order.  Property keys of a JS object are pairwise distinct. -/
structure JSObject where
  entries : List (String × JValue)
  nodup : (entries.map Prod.fst).Nodup

/-- Property read `o.k` (absent property ⇒ `undefined`, modelled `none`). -/
def jsGet (o : JSObject) (k : String) : Option JValue :=
  (o.entries.find? (fun e => e.1 == k)).map Prod.snd

/-- Nullish test used by the `??` operator: `undefined` or `null`. -/
def isNullish : Option JValue → Bool
  | none => true
  | some .nullv => true
  | some .undef => true
  | _ => false

/-- The JavaScript `??` operator: `a ?? b`. -/
def jsCoalesce (a b : Option JValue) : Option JValue :=
  if isNullish a then b else a

/-- `typeof x === 'number'` (false for an absent/undefined value). -/
def isNumber : Option JValue → Bool
  | some (.num _) => true
  | _ => false

/-- Bytes of an ASCII needle: `needle.charCodeAt(j) & 0xff` for each
position, i.e. each character's code point modulo 256. -/
def needleBytes (needle : String) : List Nat :=
  needle.data.map (fun c => c.toNat % 256)

/-- The inner loop of `includesAscii`, starting at needle position `j`:
`for (let j = 1; j < n; j++) if (bytes[i+j] !== (needle.charCodeAt(j) & 0xff)) ...`. -/
def matchRest (bytes nb : List Nat) (i j : Nat) : Bool :=
  if j < nb.length then
    if bytes.getD (i + j) 0 = nb.getD j 0 then matchRest bytes nb i (j + 1)
    else false
  else true
termination_by nb.length - j

/-- The outer loop of `includesAscii`, from candidate start `i`:
`for (let i = 0; i <= bytes.length - n; i++)` with the first-byte filter.
The JavaScript guard `i <= bytes.length - n` is over signed numbers; over
naturals it is `i + n ≤ bytes.length`. -/
def scanFrom (bytes nb : List Nat) (i : Nat) : Bool :=
  if i + nb.length ≤ bytes.length then
    if bytes.getD i 0 = nb.getD 0 0 then
      if matchRest bytes nb i 1 then true else scanFrom bytes nb (i + 1)
    else scanFrom bytes nb (i + 1)
  else false
termination_by bytes.length + 1 - i

/-- `includesAscii(bytes, needle)` from the worker: single-pass substring
search for the needle's 8-bit character codes; empty needle returns true. -/
def includesAscii (bytes : List Nat) (needle : String) : Bool :=
  let nb := needleBytes needle
  if nb.length = 0 then true
  else scanFrom bytes nb 0

/-- The `gps` record stored by `verifyDeep`: the raw (possibly undefined)
coalesced latitude/longitude values. -/
structure GpsFields where
  latitude : Option JValue
  longitude : Option JValue
deriving DecidableEq, Repr

/-- The `Verification` snapshot type of the worker. -/
structure Verification where
  hasExif : Bool
  hasXmp : Bool
  hasIptc : Bool
  exifKeys : List String
  gps : Option GpsFields := none
  dateTimeOriginal : Option JValue := none
  make : Option JValue := none
  model : Option JValue := none
  software : Option JValue := none
deriving DecidableEq, Repr

/-- `verify(bytes)` from the worker: the Marker Scanner battery. -/
def verify (bytes : List Nat) : Verification :=
  let hasXmp :=
    includesAscii bytes "<x:xmpmeta" ||
    includesAscii bytes "http://ns.adobe.com/xap/1.0/" ||
    includesAscii bytes "http://purl.org/dc/elements/1.1/"
  let hasIptc :=
    includesAscii bytes "Photoshop 3.0" ||
    includesAscii bytes "IPTC" ||
    includesAscii bytes "8BIM"
  { hasExif := includesAscii bytes "Exif"
    hasXmp := hasXmp
    hasIptc := hasIptc
    exifKeys := [] }

/-- Outcome of the external `await exifr.parse(...)` call: it threw (caught
by the `try`/`catch` in `verifyDeep`), resolved to a nullish/non-object
value (the `if (parsed && typeof parsed === 'object')` guard fails), or
resolved to an object. -/
inductive ParseOutcome where
  | failure
  | nonObject
  | success (obj : JSObject)

/-- `const latitude = (parsed.GPSLatitude ?? parsed.latitude)`. -/
def gpsLatitudeOf (obj : JSObject) : Option JValue :=
  jsCoalesce (jsGet obj "GPSLatitude") (jsGet obj "latitude")

/-- `const longitude = (parsed.GPSLongitude ?? parsed.longitude)`. -/
def gpsLongitudeOf (obj : JSObject) : Option JValue :=
  jsCoalesce (jsGet obj "GPSLongitude") (jsGet obj "longitude")

/-- `verifyDeep(bytes)` from the worker.  The outcome of the external
`exifr.parse` call is an explicit input; the function is total, mirroring
the `try`/`catch` that swallows every parse error. -/
def verifyDeep (bytes : List Nat) (p : ParseOutcome) : Verification :=
  let base := verify bytes
  match p with
  | .failure => base
  | .nonObject => base
  | .success obj =>
    let keys := List.insertionSort (· ≤ ·) (obj.entries.map Prod.fst)
    let latitude := gpsLatitudeOf obj
    let longitude := gpsLongitudeOf obj
    { base with
      exifKeys := keys
      hasExif := base.hasExif || decide (keys.length > 0)
      gps :=
        if isNumber latitude || isNumber longitude then
          some { latitude := latitude, longitude := longitude }
        else none
      dateTimeOriginal :=
        jsCoalesce (jsCoalesce (jsGet obj "DateTimeOriginal") (jsGet obj "DateTime"))
          (jsGet obj "Date/Time Original")
      make := jsCoalesce (jsGet obj "Make") (jsGet obj "make")
      model := jsCoalesce (jsGet obj "Model") (jsGet obj "model")
      software := jsCoalesce (jsGet obj "Software") (jsGet obj "software") }

/-- JavaScript `s.toLowerCase()`: per-character lowering.  Every string the
worker lowercases (file names, MIME types, and the fixed needles "heic",
"heif", "avif") is compared through ASCII characters, for which
`Char.toLower` agrees with JavaScript. -/
def jsToLower (s : String) : String :=
  ⟨s.data.map Char.toLower⟩

/-- JavaScript `s.endsWith(suffix)`: suffix occurrence by characters. -/
def jsEndsWith (s suffix : String) : Bool :=
  decide (suffix.data <:+ s.data)

/-- JavaScript `s.includes(search)`: contiguous substring occurrence. -/
def jsIncludes (s search : String) : Bool :=
  decide (search.data <:+: s.data)

/-- `isHeicLike(fileName, mimeType)` from the worker: the lowercased file
name must END with ".heic"/".heif"/".avif", or the lowercased MIME type
must CONTAIN "heic"/"heif"/"avif". -/
def isHeicLike (fileName mimeType : String) : Bool :=
  let n := jsToLower fileName
  let m := jsToLower mimeType
  jsEndsWith n ".heic" || jsEndsWith n ".heif" || jsEndsWith n ".avif" ||
    jsIncludes m "heic" || jsIncludes m "heif" || jsIncludes m "avif"

/-- Modelled from the spec: claim C3's routing predicate, in which BOTH the
file name and the MIME type are tested for "heic"/"heif"/"avif" as a
case-insensitive substring.  Stated only to compare with the source's
`isHeicLike`, whose file-name test is a suffix test on ".heic" etc. -/
def specHeicIndicator (fileName mimeType : String) : Bool :=
  jsIncludes (jsToLower fileName) "heic" || jsIncludes (jsToLower fileName) "heif" ||
    jsIncludes (jsToLower fileName) "avif" ||
    jsIncludes (jsToLower mimeType) "heic" || jsIncludes (jsToLower mimeType) "heif" ||
    jsIncludes (jsToLower mimeType) "avif"

/-- The two decode paths of `scrub`. -/
inductive DecodeRoute where
  | heic
  | native
deriving DecidableEq, Repr

/-- The dispatch performed by `scrub`:
`if (isHeicLike(req.fileName, req.mimeType)) { ...heic... } else { ...native... }`. -/
def decodeRoute (fileName mimeType : String) : DecodeRoute :=
  if isHeicLike fileName mimeType then .heic else .native

/-- An `ImageData` / decoded bitmap, kept abstract as its dimensions (the
pixel samples play no role in any claim). -/
structure ImageData where
  width : Nat
  height : Nat
deriving DecidableEq, Repr

/-- One image item returned by the libheif decoder. -/
structure HeifImage where
  width : Nat
  height : Nat
deriving DecidableEq, Repr

/-- Environment for `decodeHeicToImageData`: outcomes of the external
libheif decoder, the `getContext('2d')` call, and the asynchronous
`image.display` callback. `decoded = none` models `decoder.decode`
returning a falsy value. -/
structure HeicEnv where
  decoded : Option (List HeifImage)
  ctx : Bool
  displayData : Option ImageData

/-- `decodeHeicToImageData(bytes)` from the worker, over its environment.
A thrown `Error(msg)` is `Except.error msg`. -/
def decodeHeicToImageData (env : HeicEnv) : Except String ImageData :=
  match env.decoded with
  | none => .error "HEIC decode failed: no images found"
  | some [] => .error "HEIC decode failed: no images found"
  | some (image :: _) =>
    if env.ctx then
      match env.displayData with
      | none => .error "HEIC processing error"
      | some _ => .ok { width := image.width, height := image.height }
    else .error "Failed to create canvas context"

/-- A `Blob`: its MIME type string and its bytes (`await out.arrayBuffer()`). -/
structure Blob where
  btype : String
  bytes : List Nat

/-- A `ScrubRequest` message. -/
structure ScrubRequest where
  id : String
  fileName : String
  mimeType : String
  bytes : List Nat
  outputType : String
  quality : JNumber

/-- A `ScrubResponse`: the tagged union keyed by the `ok` flag. -/
inductive ScrubResponse where
  | ok (id : String) (cleanedBytes : List Nat) (cleanedMimeType : String)
      (before after : Verification)
  | err (id : String) (error : String)

/-- Environment for one `scrub` call: outcomes of every external platform
call it performs, in order.  `convertToBlob` receives the canvas dimensions,
the requested output type and the quality value that `scrub` passes. -/
structure ScrubEnv where
  parseBefore : ParseOutcome
  heic : HeicEnv
  bitmap : Except String ImageData
  heicCtx : Bool
  nativeCtx : Bool
  convertToBlob : Nat → Nat → String → JNumber → Except String Blob
  parseAfter : List Nat → ParseOutcome

/-- `Math.min(1, Math.max(0, req.quality))`: the quality value handed to
`canvas.convertToBlob`. -/
def clampQuality (q : JNumber) : JNumber :=
  jmin (.val 1) (jmax (.val 0) q)

/-- The canvas-producing IIFE inside `scrub`, dispatching on `isHeicLike`. -/
def scrubCanvas (req : ScrubRequest) (env : ScrubEnv) : Except String ImageData :=
  match decodeRoute req.fileName req.mimeType with
  | .heic => do
    let imgData ← decodeHeicToImageData env.heic
    if env.heicCtx then pure imgData
    else .error "Failed to create canvas context"
  | .native => do
    let bitmap ← env.bitmap
    if env.nativeCtx then pure bitmap
    else .error "Failed to create canvas context"

/-- The body of `scrub`'s `try` block: before-snapshot, decode, re-encode,
after-snapshot, and the success payload. -/
def scrubTry (req : ScrubRequest) (env : ScrubEnv) :
    Except String (List Nat × String × Verification × Verification) := do
  let before := verifyDeep req.bytes env.parseBefore
  let canvas ← scrubCanvas req env
  let out ← env.convertToBlob canvas.width canvas.height req.outputType
    (clampQuality req.quality)
  let cleanedBytes := out.bytes
  let after := verifyDeep cleanedBytes (env.parseAfter cleanedBytes)
  pure (cleanedBytes, if out.btype = "" then req.outputType else out.btype, before, after)

/-- `scrub(req)` from the worker: the `try`/`catch` that turns every thrown
error into the `ok: false` variant. -/
def scrub (req : ScrubRequest) (env : ScrubEnv) : ScrubResponse :=
  match scrubTry req env with
  | .ok (cleanedBytes, cleanedMimeType, before, after) =>
    .ok req.id cleanedBytes cleanedMimeType before after
  | .error e => .err req.id e

/-- A concrete request carrying a NaN quality value. -/
def reqNanQuality : ScrubRequest :=
  { id := "r1", fileName := "a.jpg", mimeType := "image/jpeg", bytes := [],
    outputType := "image/jpeg", quality := .nan }

/-- A concrete request carrying quality one half. -/
def reqHalfQuality : ScrubRequest :=
  { id := "r2", fileName := "a.jpg", mimeType := "image/jpeg", bytes := [],
    outputType := "image/jpeg", quality := .val (1 / 2) }

/-- The needle's bytes occur in `bytes` starting at position `i`. -/
def occursAt (bytes nb : List Nat) (i : Nat) : Prop :=
  i + nb.length ≤ bytes.length ∧ ∀ j, j < nb.length → bytes.getD (i + j) 0 = nb.getD j 0

theorem matchRest_iff (bytes nb : List Nat) (i j : Nat) :
    matchRest bytes nb i j = true ↔
      ∀ k, j ≤ k → k < nb.length → bytes.getD (i + k) 0 = nb.getD k 0 := by
  rw [matchRest.eq_def]
  split
  · rename_i hj
    split
    · rename_i heq
      rw [matchRest_iff bytes nb i (j + 1)]
      constructor
      · intro h k hjk hk
        rcases eq_or_lt_of_le hjk with rfl | hlt
        · exact heq
        · exact h k hlt hk
      · intro h k hjk hk
        exact h k (by omega) hk
    · rename_i hne
      refine iff_of_false (by simp) ?_
      intro h
      exact hne (h j le_rfl hj)
  · rename_i hj
    constructor
    · intro _ k hjk hk
      exact absurd hk (by omega)
    · intro _
      rfl
termination_by nb.length - j

theorem scanFrom_iff (bytes nb : List Nat) (hnb : nb ≠ []) (i : Nat) :
    scanFrom bytes nb i = true ↔ ∃ k, i ≤ k ∧ occursAt bytes nb k := by
  have hlen : 0 < nb.length := List.length_pos.mpr hnb
  rw [scanFrom.eq_def]
  split
  · rename_i hguard
    split
    · rename_i hfirst
      split
      · rename_i hrest
        refine iff_of_true rfl ⟨i, le_rfl, hguard, fun j hj => ?_⟩
        rcases Nat.eq_zero_or_pos j with rfl | hpos
        · simpa using hfirst
        · exact (matchRest_iff bytes nb i 1).mp hrest j hpos hj
      · rename_i hrest
        rw [scanFrom_iff bytes nb hnb (i + 1)]
        constructor
        · rintro ⟨k, h1, h2⟩
          exact ⟨k, by omega, h2⟩
        · rintro ⟨k, h1, h2⟩
          refine ⟨k, ?_, h2⟩
          rcases eq_or_lt_of_le h1 with rfl | hlt
          · exact absurd ((matchRest_iff bytes nb i 1).mpr fun j _ hj => h2.2 j hj) hrest
          · omega
    · rename_i hfirst
      rw [scanFrom_iff bytes nb hnb (i + 1)]
      constructor
      · rintro ⟨k, h1, h2⟩
        exact ⟨k, by omega, h2⟩
      · rintro ⟨k, h1, h2⟩
        refine ⟨k, ?_, h2⟩
        rcases eq_or_lt_of_le h1 with rfl | hlt
        · exact absurd (by simpa using h2.2 0 hlen) hfirst
        · omega
  · rename_i hguard
    refine iff_of_false (by simp) ?_
    rintro ⟨k, h1, h2, _⟩
    omega
termination_by bytes.length + 1 - i
decreasing_by
  all_goals omega

theorem occursAt_iff_infix (bytes nb : List Nat) :
    (∃ i, occursAt bytes nb i) ↔ nb <:+: bytes := by
  constructor
  · rintro ⟨i, hle, hpt⟩
    have htake : (bytes.drop i).take nb.length = nb := by
      apply List.ext_getElem
      · simp
        omega
      · intro k h1 h2
        have hk : i + k < bytes.length := by omega
        have := hpt k h2
        rw [List.getD_eq_getElem _ _ hk, List.getD_eq_getElem _ _ h2] at this
        simpa using this
    refine ⟨bytes.take i, (bytes.drop i).drop nb.length, ?_⟩
    nth_rewrite 1 [← htake]
    rw [List.append_assoc, List.take_append_drop, List.take_append_drop]
  · rintro ⟨s, t, rfl⟩
    refine ⟨s.length, by simp, fun j hj => ?_⟩
    have hj2 : s.length + j < (s ++ nb ++ t).length := by
      simp
      omega
    rw [List.getD_eq_getElem _ _ hj2, List.getD_eq_getElem _ _ hj]
    rw [List.getElem_append_left (show s.length + j < (s ++ nb).length by simp; omega)]
    rw [List.getElem_append_right (show s.length ≤ s.length + j by omega)]
    simp

/-- C2: `includesAscii` returns true exactly when the needle's 8-bit
character codes occur in the byte sequence as a contiguous run, and the
empty needle matches every byte sequence. -/
theorem C2_includesAscii_contiguous (bytes : List Nat) (needle : String) :
    (includesAscii bytes needle = true ↔ needleBytes needle <:+: bytes) ∧
      includesAscii bytes "" = true := by
  constructor
  · show (if (needleBytes needle).length = 0 then true
        else scanFrom bytes (needleBytes needle) 0) = true ↔ _
    by_cases h : (needleBytes needle).length = 0
    · rw [if_pos h, List.length_eq_zero.mp h]
      simp [List.nil_infix]
    · rw [if_neg h,
        scanFrom_iff bytes _ (fun hn => h (by rw [hn]; rfl)) 0,
        ← occursAt_iff_infix]
      constructor
      · rintro ⟨k, _, hk⟩
        exact ⟨k, hk⟩
      · rintro ⟨k, hk⟩
        exact ⟨k, Nat.zero_le k, hk⟩
  · rfl

theorem decide_length_pos_eq_not_isEmpty (l : List String) :
    decide (l.length > 0) = !l.isEmpty := by
  cases l <;> simp

/-- C1: for every byte sequence and every outcome of the structured parse,
the snapshot's `hasExif` is the logical OR of the raw "Exif" marker scan
and non-emptiness of the structured key set; in particular it is true
whenever `exifKeys` is non-empty. -/
theorem C1_hasExif_or_invariant (bytes : List Nat) (p : ParseOutcome) :
    (verifyDeep bytes p).hasExif =
      (includesAscii bytes "Exif" || !(verifyDeep bytes p).exifKeys.isEmpty) := by
  cases p with
  | failure => simp [verifyDeep, verify]
  | nonObject => simp [verifyDeep, verify]
  | success obj =>
    simp only [verifyDeep, verify, decide_length_pos_eq_not_isEmpty]

/-- C4: `verifyDeep` is a total function (the `try`/`catch` swallows every
parse error), and when the parse throws or yields no object the snapshot is
exactly the Marker Scanner's: empty `exifKeys`, no optional fields, and the
scanner's `hasExif`/`hasXmp`/`hasIptc` unchanged. -/
theorem C4_parse_failure_degrades (bytes : List Nat) :
    verifyDeep bytes .failure = verify bytes ∧
    verifyDeep bytes .nonObject = verify bytes ∧
    (verify bytes).exifKeys = [] ∧
    (verify bytes).gps = none ∧
    (verify bytes).dateTimeOriginal = none ∧
    (verify bytes).make = none ∧
    (verify bytes).model = none ∧
    (verify bytes).software = none :=
  ⟨rfl, rfl, rfl, rfl, rfl, rfl, rfl, rfl⟩

/-- C6: for every input and parse outcome, `exifKeys` is sorted in the
lexicographic string order and holds no duplicates (a JS object cannot
repeat a property key, and the worker sorts `Object.keys`). -/
theorem C6_exifKeys_sorted_nodup (bytes : List Nat) (p : ParseOutcome) :
    List.Sorted (· ≤ ·) (verifyDeep bytes p).exifKeys ∧
      (verifyDeep bytes p).exifKeys.Nodup := by
  cases p with
  | failure => exact ⟨List.sorted_nil, List.nodup_nil⟩
  | nonObject => exact ⟨List.sorted_nil, List.nodup_nil⟩
  | success obj =>
    constructor
    · exact List.sorted_insertionSort _ _
    · exact ((List.perm_insertionSort _ _).nodup_iff).mpr obj.nodup

/-- C8: the structured extraction step never changes `hasXmp`/`hasIptc`:
for every parse outcome they equal the Marker Scanner's literal signature
search results. -/
theorem C8_xmp_iptc_scanner_only (bytes : List Nat) (p : ParseOutcome) :
    (verifyDeep bytes p).hasXmp = (verify bytes).hasXmp ∧
    (verifyDeep bytes p).hasIptc = (verify bytes).hasIptc ∧
    (verify bytes).hasXmp = (includesAscii bytes "<x:xmpmeta" ||
      includesAscii bytes "http://ns.adobe.com/xap/1.0/" ||
      includesAscii bytes "http://purl.org/dc/elements/1.1/") ∧
    (verify bytes).hasIptc = (includesAscii bytes "Photoshop 3.0" ||
      includesAscii bytes "IPTC" || includesAscii bytes "8BIM") := by
  cases p <;> exact ⟨rfl, rfl, rfl, rfl⟩

/-- C9: when the structured parse succeeds, the optional `gps` field is
populated exactly when the coalesced `GPSLatitude ?? latitude` or
`GPSLongitude ?? longitude` value is a number. -/
theorem C9_gps_iff_number (bytes : List Nat) (obj : JSObject) :
    (verifyDeep bytes (.success obj)).gps.isSome =
      (isNumber (gpsLatitudeOf obj) || isNumber (gpsLongitudeOf obj)) := by
  by_cases h : (isNumber (gpsLatitudeOf obj) || isNumber (gpsLongitudeOf obj)) = true
  · simp [verifyDeep, h]
  · simp only [Bool.not_eq_true] at h
    simp [verifyDeep, h]

/-- C5: `scrub` always returns one of the two tagged variants, carrying the
request's id; every internal throw is caught and becomes the `ok: false`
variant. -/
theorem C5_response_tagged_union (req : ScrubRequest) (env : ScrubEnv) :
    (∃ cb cm before after, scrub req env = .ok req.id cb cm before after) ∨
    (∃ msg, scrub req env = .err req.id msg) := by
  cases h : scrubTry req env with
  | ok payload =>
    obtain ⟨cb, cm, before, after⟩ := payload
    exact Or.inl ⟨cb, cm, before, after, by simp [scrub, h]⟩
  | error e => exact Or.inr ⟨e, by simp [scrub, h]⟩

theorem scrub_quality_congr (req : ScrubRequest) (env : ScrubEnv) (q q' : JNumber)
    (h : clampQuality q = clampQuality q') :
    scrub { req with quality := q } env = scrub { req with quality := q' } env := by
  simp only [scrub, scrubTry, scrubCanvas]
  simp only [h]

/-- C7: the quality handed to the encoder is `min(1, max(0, quality))`;
requesting 1.5 or -0.2 yields exactly the same response as requesting 1.0
or 0.0, so out-of-range values are never rejected. -/
theorem C7_quality_clamped (req : ScrubRequest) (env : ScrubEnv) (q : ℚ) :
    scrub { req with quality := .val (3 / 2) } env =
        scrub { req with quality := .val 1 } env ∧
      scrub { req with quality := .val (-(1 / 5)) } env =
        scrub { req with quality := .val 0 } env ∧
      clampQuality (.val q) = .val (min 1 (max 0 q)) := by
  refine ⟨scrub_quality_congr req env _ _ ?_, scrub_quality_congr req env _ _ ?_, rfl⟩
  · show JNumber.val (min 1 (max 0 (3 / 2))) = JNumber.val (min 1 (max 0 1))
    norm_num
  · show JNumber.val (min 1 (max 0 (-(1 / 5)))) = JNumber.val (min 1 (max 0 0))
    norm_num

/-- C10: the clamp does not normalize NaN — `min(1, max(0, NaN))` is NaN,
which is not in [0, 1]; for every non-NaN quality the clamped value lies in
[0, 1]. -/
theorem C10_clamp_nan (req : ScrubRequest) :
    (req.quality = JNumber.nan →
      clampQuality req.quality = JNumber.nan ∧
        inUnitInterval (clampQuality req.quality) = false) ∧
    (req.quality ≠ JNumber.nan → inUnitInterval (clampQuality req.quality) = true) := by
  constructor
  · intro h
    rw [h]
    exact ⟨rfl, rfl⟩
  · intro h
    cases hq : req.quality with
    | nan => exact absurd hq h
    | posInf => decide
    | negInf => decide
    | val q =>
      show decide (0 ≤ min 1 (max 0 q) ∧ min 1 (max 0 q) ≤ 1) = true
      rw [decide_eq_true_eq]
      exact ⟨le_min (by norm_num) (le_max_left 0 q), min_le_left 1 _⟩

/-- Witness for C10: the clamp of the NaN request is NaN and outside
[0, 1]; the clamp of the quality-one-half request is inside [0, 1]. -/
theorem C10_clamp_nan_witness :
    (clampQuality reqNanQuality.quality = JNumber.nan ∧
      inUnitInterval (clampQuality reqNanQuality.quality) = false) ∧
    inUnitInterval (clampQuality reqHalfQuality.quality) = true :=
  ⟨(C10_clamp_nan reqNanQuality).1 rfl,
   (C10_clamp_nan reqHalfQuality).2 (fun h => JNumber.noConfusion h)⟩

/-- C3 counterexample: the file name "myheic.png" (empty MIME type)
contains "heic" as a case-insensitive substring, so the claim routes it to
the HEIC decode adapter, but the worker routes it to the native path — the
file-name test in the code is a suffix test on ".heic"/".heif"/".avif",
not a substring test. -/
theorem C3_counterexample :
    specHeicIndicator "myheic.png" "" = true ∧
      decodeRoute "myheic.png" "" = DecodeRoute.native := by
  constructor
  · decide
  · decide

/-- C3 (amended): the scrub pipeline routes to the HEIC/HEIF decode
adapter iff the lowercased file name ends with ".heic", ".heif" or ".avif",
or the lowercased MIME type contains "heic", "heif" or "avif"; in
particular "photo.HEIC" with empty MIME type routes to the HEIC path. -/
theorem C3_route_amended (fileName mimeType : String) :
    (decodeRoute fileName mimeType = DecodeRoute.heic ↔
      (".heic".data <:+ (jsToLower fileName).data ∨
       ".heif".data <:+ (jsToLower fileName).data ∨
       ".avif".data <:+ (jsToLower fileName).data ∨
       "heic".data <:+: (jsToLower mimeType).data ∨
       "heif".data <:+: (jsToLower mimeType).data ∨
       "avif".data <:+: (jsToLower mimeType).data)) ∧
    decodeRoute "photo.HEIC" "" = DecodeRoute.heic := by
  refine ⟨?_, by decide⟩
  have h1 : decodeRoute fileName mimeType = DecodeRoute.heic ↔
      isHeicLike fileName mimeType = true := by
    unfold decodeRoute
    split
    · rename_i h
      exact iff_of_true rfl h
    · rename_i h
      exact iff_of_false (fun hh => DecodeRoute.noConfusion hh) (by simpa using h)
  rw [h1]
  simp only [isHeicLike, jsEndsWith, jsIncludes, Bool.or_eq_true, decide_eq_true_eq]
  tauto

end Scrub
